import Mathlib

/-!
Shallow embedding of the `retry` Go package (github.com/AdamSLevy/retry):
the wait-policy algebra of `policy.go` and the retry control loop of
`run.go`, together with theorems checking the package's specification.

Modelling conventions:

* Go `time.Duration` is `int64`; it is modelled as `Int`, with the int64
  range made explicit (`inInt64`, `toInt64`) exactly where the source does
  64-bit checked arithmetic (the `overflow` package used by `Linear.Wait`).
* Go `uint` (64-bit) arithmetic on the attempt counter is modelled on
  `Nat`, with the wrapping subtraction `attempts - 1` and the
  `uint -> int64` conversion made explicit (`uintSub1`, `toInt64`).
* Go `error` values are modelled by the inductive `GoError`.  `base tag`
  is a plain error with no `Unwrap` method; `wrapped tag inner` is an
  error produced by `fmt.Errorf("...: %w", inner)`; `canceled` and
  `deadlineExceeded` are the `context` package sentinels; `stopWrap inner`
  is the unexported `errorStop` struct, which implements `Error()` but not
  `Unwrap()`.  `errIs` models `errors.Is` over this universe: target
  equality or a walk of the unwrap chain (only `wrapped` unwraps).
* `Run` is modelled as a fuel-indexed interpreter `runLoop`.  The
  operation is a function from the call index (0-based) to its result,
  an already-deterministic trace of the calls Go would make.  `ctxDone n`
  says whether the context is done during the wait that follows the n-th
  attempt; when the wait is positive and the context is done, the `select`
  in `run.go` takes the `ctx.Done()` branch (the timer channel cannot be
  ready before the positive duration elapses).  `elapsedAt n` is the value
  `timeSince(start)` passed to the policy after the n-th attempt.  The
  notifications `notify` would receive are collected in a list; a caller
  with `notify == nil` simply ignores it.  Real time and the timer object
  itself are not modelled; only their control-flow effects are.
-/

namespace Retry

/-- Largest `int64` value, `math.MaxInt64`. -/
def maxInt64 : Int := 2 ^ 63 - 1

/-- Smallest `int64` value, `math.MinInt64`. -/
def minInt64 : Int := -(2 ^ 63)

/-- Whether an integer is representable as an `int64` (no overflow). -/
def inInt64 (x : Int) : Bool := decide (minInt64 ≤ x ∧ x ≤ maxInt64)

/-- Reduction of an integer into the `int64` range by wrapping (two's
complement), the meaning of Go conversions to `int64`. -/
def toInt64 (x : Int) : Int := (x + 2 ^ 63) % 2 ^ 64 - 2 ^ 63

/-- Go `attempts - 1` on a 64-bit `uint`: wrapping subtraction of 1. -/
def uintSub1 (attempts : Nat) : Nat := (attempts + 2 ^ 64 - 1) % 2 ^ 64

/-- Model of `overflow.Mul64`: the wrapped 64-bit product, and whether the
mathematical product fits in `int64` (the `ok` flag). -/
def mul64 (a b : Int) : Int × Bool := (toInt64 (a * b), inInt64 (a * b))

/-- Model of `overflow.Add64`: the wrapped 64-bit sum, and whether the
mathematical sum fits in `int64` (the `ok` flag). -/
def add64 (a b : Int) : Int × Bool := (toInt64 (a + b), inInt64 (a + b))

/-- `const Stop = time.Duration(-1)`, the give-up sentinel of `policy.go`. -/
def Stop : Int := -1

/-- A `Policy`'s `Wait` method: from (attempts, total elapsed) to a wait
duration.  Go's `Policy` interface is modelled by this function type. -/
abbrev Policy := Nat → Int → Int

/-- `Immediate.Wait` from `policy.go`: always returns a zero wait time. -/
def Immediate : Policy := fun _ _ => 0

/-- `Constant.Wait` from `policy.go`: always returns the fixed duration
(`type Constant time.Duration`). -/
def Constant (c : Int) : Policy := fun _ _ => c

/-- The `Linear` policy of `policy.go`: `Initial` plus `Increment` per
additional attempt. -/
structure Linear where
  Initial : Int
  Increment : Int

/-- `Linear.Wait` from `policy.go`:

    if mx, ok := overflow.Mul64(int64(l.Increment), int64(attempts-1)); ok {
        if wait, ok := overflow.Add64(int64(l.Initial), mx); ok {
            return time.Duration(wait)
        }
    }
    return math.MaxInt64

with `attempts-1` computed on `uint` and converted to `int64`. -/
def Linear.Wait (l : Linear) (attempts : Nat) (_total : Int) : Int :=
  let m := mul64 l.Increment (toInt64 (uintSub1 attempts))
  if m.2 then
    let s := add64 l.Initial m.1
    if s.2 then s.1 else maxInt64
  else maxInt64

/-- The `LimitAttempts` policy of `policy.go`: stop after `Limit` attempts,
otherwise delegate to the inner policy. -/
structure LimitAttempts where
  Limit : Nat
  Policy : Policy

/-- `LimitAttempts.Wait` from `policy.go`:

    if attempts >= l.Limit { return Stop }
    return l.Policy.Wait(attempts, total) -/
def LimitAttempts.Wait (l : LimitAttempts) (attempts : Nat) (total : Int) : Int :=
  if attempts ≥ l.Limit then Stop else l.Policy attempts total

/-- The `Max` policy of `policy.go`: cap the inner policy's wait at `Cap`. -/
structure Max where
  Cap : Int
  Policy : Policy

/-- `Max.Wait` from `policy.go`:

    wait := m.Policy.Wait(attempts, total)
    if wait > m.Cap { return m.Cap }
    return wait -/
def Max.Wait (m : Max) (attempts : Nat) (total : Int) : Int :=
  let wait := m.Policy attempts total
  if wait > m.Cap then m.Cap else wait

/-- Model of Go `error` values as used by this package.  `base` and
`wrapped` carry a `Nat` tag standing for the identity of an error created
by `errors.New` / the message of `fmt.Errorf`; `wrapped` is an error whose
`Unwrap` returns `inner`; `stopWrap` is the unexported `errorStop` struct,
which has no `Unwrap` method. -/
inductive GoError where
  | canceled
  | deadlineExceeded
  | base (tag : Nat)
  | wrapped (tag : Nat) (inner : GoError)
  | stopWrap (inner : GoError)
  deriving DecidableEq

/-- Model of `errors.Is(e, target)`: `e == target`, or recurse into the
unwrap chain.  Only `wrapped` has an `Unwrap` method; in particular
`errorStop` does not, so `errIs` never looks inside `stopWrap`. -/
def errIs : GoError → GoError → Bool
  | .wrapped tag inner, target =>
    (GoError.wrapped tag inner == target) || errIs inner target
  | e, target => e == target

/-- `ErrorStop` from `errorstop.go`: wrap `err` so that `Run` stops
immediately and returns `err`. -/
def ErrorStop (err : GoError) : GoError := .stopWrap err

/-- The type assertion `err.(errorStop)` in `run.go`: whether the error is
the `errorStop` wrapper. -/
def isErrorStop : GoError → Bool
  | .stopWrap _ => true
  | _ => false

/-- The field access `err.err` on an `errorStop` in `run.go` (identity on
other errors, where `run.go` never applies it). -/
def stopInner : GoError → GoError
  | .stopWrap e => e
  | e => e

/-- One call `notify(err, attempt, wait)` made by `Run`. -/
structure Notif where
  err : GoError
  attempt : Nat
  wait : Int
  deriving DecidableEq

/-- Outcome of the modelled `Run`: the returned error (`none` for a nil
return) together with the sequence of notify calls, or `fuelOut` when the
supplied fuel was exhausted before `Run` returned. -/
inductive RunResult where
  | ok (err : Option GoError) (notifs : List Notif)
  | fuelOut
  deriving DecidableEq

/-- The retry loop of `run.go`, one iteration per unit of fuel:

    for {
        err := filterOp()
        if err == nil { return nil }
        attempt++
        if errors.Is(err, context.Canceled) ||
            errors.Is(err, context.DeadlineExceeded) { return err }
        if err, ok := err.(errorStop); ok { return err.err }
        wait := p.Wait(attempt, timeSince(start))
        if wait <= Stop { return err }
        if notify != nil { notify(err, attempt, wait) }
        if wait == 0 { continue }
        tmr.Reset(wait)
        select {
        case <-ctx.Done(): return err
        case <-tmr.GetC():
        }
    }

`callIdx` is the number of operation calls already made, `attempt` the
current value of the attempt counter, and `notifs` the notify calls made
so far. -/
def runLoop (ctxDone : Nat → Bool) (p : Policy) (elapsedAt : Nat → Int)
    (filterOp : Nat → Option GoError) (notifs : List Notif)
    (callIdx attempt : Nat) : Nat → RunResult
  | 0 => .fuelOut
  | fuel + 1 =>
    match filterOp callIdx with
    | none => .ok none notifs
    | some err =>
      if errIs err .canceled || errIs err .deadlineExceeded then
        .ok (some err) notifs
      else if isErrorStop err then
        .ok (some (stopInner err)) notifs
      else
        let wait := p (attempt + 1) (elapsedAt (attempt + 1))
        if wait ≤ Stop then
          .ok (some err) notifs
        else
          let notifs' := notifs ++ [⟨err, attempt + 1, wait⟩]
          if wait = 0 then
            runLoop ctxDone p elapsedAt filterOp notifs' (callIdx + 1) (attempt + 1) fuel
          else if ctxDone (attempt + 1) then
            .ok (some err) notifs'
          else
            runLoop ctxDone p elapsedAt filterOp notifs' (callIdx + 1) (attempt + 1) fuel

/-- `Run` from `run.go`: wrap `op` with `filter` when one is supplied and
enter the loop with a fresh attempt counter and notification record. -/
def Run (ctxDone : Nat → Bool) (p : Policy)
    (filter : Option (Option GoError → Option GoError))
    (op : Nat → Option GoError) (elapsedAt : Nat → Int) (fuel : Nat) : RunResult :=
  let filterOp : Nat → Option GoError :=
    match filter with
    | none => op
    | some f => fun k => f (op k)
  runLoop ctxDone p elapsedAt filterOp [] 0 0 fuel

/-- 100 milliseconds as a `time.Duration` (nanoseconds). -/
def ms100 : Int := 100000000

/-- One second as a `time.Duration` (nanoseconds). -/
def second : Int := 1000000000

/-- An operation that fails four times with a plain error and succeeds on
the fifth call. -/
def op4 : Nat → Option GoError := fun k => if k < 4 then some (.base 0) else none

/-! ## Helper lemmas -/

theorem toInt64_eq_self (x : Int) (h : inInt64 x = true) : toInt64 x = x := by
  simp only [inInt64, minInt64, maxInt64, decide_eq_true_eq] at h
  unfold toInt64
  omega

theorem uintSub1_eq (a : Nat) (h1 : 1 ≤ a) (h2 : a ≤ 2 ^ 64) : uintSub1 a = a - 1 := by
  unfold uintSub1
  omega

theorem errIs_stopWrap_canceled (e : GoError) :
    errIs (.stopWrap e) .canceled = false := rfl

theorem errIs_stopWrap_deadline (e : GoError) :
    errIs (.stopWrap e) .deadlineExceeded = false := rfl

/-- Peeling one iteration of `runLoop` when the current operation call
fails with an error that is neither cancellation-fatal nor an `errorStop`:
the loop reaches the policy query. -/
theorem runLoop_retryable_step (ctxDone : Nat → Bool) (p : Policy) (elapsedAt : Nat → Int)
    (filterOp : Nat → Option GoError) (notifs : List Notif)
    (idx attempt fuel : Nat) (err : GoError)
    (hop : filterOp idx = some err)
    (hnf : (errIs err .canceled || errIs err .deadlineExceeded) = false)
    (hns : isErrorStop err = false) :
    runLoop ctxDone p elapsedAt filterOp notifs idx attempt (fuel + 1) =
      (if p (attempt + 1) (elapsedAt (attempt + 1)) ≤ Stop then
        .ok (some err) notifs
      else if p (attempt + 1) (elapsedAt (attempt + 1)) = 0 then
        runLoop ctxDone p elapsedAt filterOp
          (notifs ++ [⟨err, attempt + 1, p (attempt + 1) (elapsedAt (attempt + 1))⟩])
          (idx + 1) (attempt + 1) fuel
      else if ctxDone (attempt + 1) then
        .ok (some err) (notifs ++ [⟨err, attempt + 1, p (attempt + 1) (elapsedAt (attempt + 1))⟩])
      else
        runLoop ctxDone p elapsedAt filterOp
          (notifs ++ [⟨err, attempt + 1, p (attempt + 1) (elapsedAt (attempt + 1))⟩])
          (idx + 1) (attempt + 1) fuel) := by
  rw [runLoop, hop]
  simp only [hnf, hns, Bool.false_eq_true, if_false]

/-- Peeling one iteration of `runLoop` when the current operation call
fails with an `errorStop` wrapper: the loop returns the inner error. -/
theorem runLoop_stopWrap_step (ctxDone : Nat → Bool) (p : Policy) (elapsedAt : Nat → Int)
    (filterOp : Nat → Option GoError) (notifs : List Notif)
    (idx attempt fuel : Nat) (err : GoError)
    (hop : filterOp idx = some (.stopWrap err)) :
    runLoop ctxDone p elapsedAt filterOp notifs idx attempt (fuel + 1) =
      .ok (some err) notifs := by
  rw [runLoop, hop]
  simp only [errIs_stopWrap_canceled, errIs_stopWrap_deadline, Bool.or_self,
    Bool.false_eq_true, if_false, isErrorStop, if_true, stopInner]

/-! ## Claims about the policy algebra -/

/-- Claim C6: for every inner policy `p`, limit `n`, attempts `a` and
elapsed `t`, `LimitAttempts{n, p}.Wait(a, t)` returns `Stop` whenever
`a >= n` (the comparison is `>=`, not `>`), and returns exactly
`p.Wait(a, t)` whenever `a < n`. -/
theorem limitAttempts_wait_spec (p : Policy) (n a : Nat) (t : Int) :
    (n ≤ a → (LimitAttempts.mk n p).Wait a t = Stop) ∧
    (a < n → (LimitAttempts.mk n p).Wait a t = p a t) := by
  unfold LimitAttempts.Wait
  constructor <;> intro h
  · simp [h]
  · simp [Nat.not_le.mpr h]

theorem limitAttempts_wait_spec_witness :
    (LimitAttempts.mk 2 Immediate).Wait 2 0 = Stop ∧
    (LimitAttempts.mk 2 Immediate).Wait 1 0 = Immediate 1 0 :=
  ⟨(limitAttempts_wait_spec Immediate 2 2 0).1 (by decide),
   (limitAttempts_wait_spec Immediate 2 1 0).2 (by decide)⟩

/-- Claim C9, counterexample: with a negative cap, `Max.Wait` does alter an
inner result of `0`: for `cap = -2` over `Constant 0`, the inner policy
returns `0` but `Max` returns `-2`. -/
theorem max_wait_alters_zero_cex :
    Constant 0 1 0 = 0 ∧ (Max.mk (-2) (Constant 0)).Wait 1 0 = -2 := by decide

/-- Claim C9, amended: for every cap, `Max{cap, p}.Wait(a, t)` returns
`p.Wait(a, t)` unless that result exceeds `cap`, in which case it returns
`cap`, and it never raises a sub-cap value; provided `cap` is non-negative
it also never alters an inner result of `0` or `Stop`. -/
theorem max_wait_spec (p : Policy) (cap t : Int) (a : Nat) :
    ((Max.mk cap p).Wait a t = if p a t > cap then cap else p a t) ∧
    (p a t ≤ cap → (Max.mk cap p).Wait a t = p a t) ∧
    (0 ≤ cap → p a t = 0 → (Max.mk cap p).Wait a t = 0) ∧
    (0 ≤ cap → p a t = Stop → (Max.mk cap p).Wait a t = Stop) := by
  unfold Max.Wait
  dsimp only
  refine ⟨rfl, fun h => ?_, fun hc h => ?_, fun hc h => ?_⟩
  · rw [if_neg (by omega)]
  · simp only [h]
    rw [if_neg (by omega)]
  · simp only [h, Stop]
    rw [if_neg (by omega)]

theorem max_wait_spec_witness :
    ((Max.mk (-2) (Constant 7)).Wait 1 0 = -2) ∧
    ((Max.mk 5 (Constant Stop)).Wait 1 0 = Stop) :=
  ⟨((max_wait_spec (Constant 7) (-2) 0 1).1).trans (by decide),
   (max_wait_spec (Constant Stop) 5 0 1).2.2.2 (by decide) rfl⟩

/-- Claim C7, counterexample: for `attempts = 2^63 + 1` (with
`initial = 0`, `increment = 1`) the `uint` value `attempts - 1 = 2^63`
converts to the `int64` value `-2^63`, no 64-bit check fails, and
`Linear.Wait` returns the negative duration `-2^63` instead of saturating
to `math.MaxInt64`. -/
theorem linear_wait_wrap_cex :
    (Linear.mk 0 1).Wait (2 ^ 63 + 1) 0 = -(2 ^ 63) ∧ (-(2 ^ 63) : Int) < 0 := by
  decide

/-- Claim C7, amended: for all `attempts` with `1 ≤ attempts ≤ 2^63`
(beyond which the `uint`-to-`int64` conversion of `attempts - 1` itself
wraps negative), `Linear{initial, increment}.Wait(attempts, t)` equals
`initial + (attempts-1)*increment`; if the 64-bit multiplication or the
64-bit addition overflows, the whole result saturates to `math.MaxInt64`
rather than wrapping negative. -/
theorem linear_wait_spec (initial increment : Int) (attempts : Nat) (t : Int)
    (h1 : 1 ≤ attempts) (h2 : attempts ≤ 2 ^ 63) :
    (Linear.mk initial increment).Wait attempts t =
      if inInt64 (increment * ((attempts : Int) - 1))
          && inInt64 (initial + increment * ((attempts : Int) - 1))
      then initial + increment * ((attempts : Int) - 1)
      else maxInt64 := by
  have hu : uintSub1 attempts = attempts - 1 := uintSub1_eq attempts h1 (by omega)
  have hc : ((attempts - 1 : Nat) : Int) = (attempts : Int) - 1 := by omega
  have key : toInt64 ((uintSub1 attempts : Nat) : Int) = (attempts : Int) - 1 := by
    rw [hu, hc]
    refine toInt64_eq_self _ ?_
    simp only [inInt64, minInt64, maxInt64, decide_eq_true_eq]
    omega
  simp only [Linear.Wait, mul64, add64, key]
  by_cases hm : inInt64 (increment * ((attempts : Int) - 1)) = true
  · rw [toInt64_eq_self _ hm]
    by_cases ha : inInt64 (initial + increment * ((attempts : Int) - 1)) = true
    · simp only [hm, ha, Bool.and_self, if_true, toInt64_eq_self _ ha]
    · simp [hm, ha]
  · simp only [hm, Bool.false_and, if_false, Bool.false_eq_true]

theorem linear_wait_spec_witness :
    (Linear.mk 5 3).Wait 4 0 = 14 :=
  (linear_wait_spec 5 3 4 0 (by decide) (by decide)).trans (by decide)

/-! ## Claims about the retry loop -/

/-- Claim C1: an operation that fails 4 times and succeeds on the 5th call
under policy `Constant(100ms)` makes `Run` return no error, with `notify`
called exactly 4 times, at increasing attempt numbers 1..4 and a wait of
100ms each time. -/
theorem run_constant_five_attempts :
    Run (fun _ => false) (Constant ms100) none op4 (fun _ => 0) 5 =
      .ok none [⟨.base 0, 1, ms100⟩, ⟨.base 0, 2, ms100⟩, ⟨.base 0, 3, ms100⟩,
        ⟨.base 0, 4, ms100⟩] := by
  decide

/-- Claim C2: whenever the current (filtered) operation call returns an
error that is, or wraps via the unwrap chain, `context.Canceled` or
`context.DeadlineExceeded`, the loop returns that error verbatim at once:
for every policy, context, remaining fuel and notification record — so the
policy is never consulted, no notification is added, and no retry
happens. -/
theorem run_fatal_cancellation (ctxDone : Nat → Bool) (p : Policy) (elapsedAt : Nat → Int)
    (filterOp : Nat → Option GoError) (notifs : List Notif) (idx attempt fuel : Nat)
    (err : GoError) (hop : filterOp idx = some err)
    (hfatal : (errIs err .canceled || errIs err .deadlineExceeded) = true) :
    runLoop ctxDone p elapsedAt filterOp notifs idx attempt (fuel + 1) =
      .ok (some err) notifs := by
  rw [runLoop, hop]
  simp only [hfatal, if_true]

theorem run_fatal_cancellation_witness :
    runLoop (fun _ => false) Immediate (fun _ => 0)
      (fun _ => some (.wrapped 7 .canceled)) [] 0 0 1 =
      .ok (some (.wrapped 7 .canceled)) [] :=
  run_fatal_cancellation (fun _ => false) Immediate (fun _ => 0)
    (fun _ => some (.wrapped 7 .canceled)) [] 0 0 0 (.wrapped 7 .canceled) rfl (by decide)

/-- Claim C3: whenever the current (filtered) operation call returns
`ErrorStop(err)`, the loop terminates immediately and returns exactly the
original `err` — identity preserved, no wrapper left, and (for every
policy, context and remaining fuel) no further retry and no further
notification. -/
theorem run_errorStop_roundtrip (ctxDone : Nat → Bool) (p : Policy) (elapsedAt : Nat → Int)
    (filterOp : Nat → Option GoError) (notifs : List Notif) (idx attempt fuel : Nat)
    (err : GoError) (hop : filterOp idx = some (ErrorStop err)) :
    runLoop ctxDone p elapsedAt filterOp notifs idx attempt (fuel + 1) =
      .ok (some err) notifs :=
  runLoop_stopWrap_step ctxDone p elapsedAt filterOp notifs idx attempt fuel err hop

theorem run_errorStop_roundtrip_witness :
    runLoop (fun _ => false) Immediate (fun _ => 0)
      (fun _ => some (ErrorStop (.base 3))) [] 0 0 1 =
      .ok (some (.base 3)) [] :=
  run_errorStop_roundtrip (fun _ => false) Immediate (fun _ => 0)
    (fun _ => some (ErrorStop (.base 3))) [] 0 0 0 (.base 3) rfl

/-- Claim C4: after a retryable failure, if the policy's decision is at
most the `Stop` sentinel (any negative duration) the loop gives up and
returns the current filtered error with no notification; if the decision
is exactly zero the loop does not give up: it records the notification and
retries the operation immediately, skipping the wait (and hence the
context check) entirely. -/
theorem run_policy_decision (ctxDone : Nat → Bool) (p : Policy) (elapsedAt : Nat → Int)
    (filterOp : Nat → Option GoError) (notifs : List Notif) (idx attempt fuel : Nat)
    (err : GoError) (hop : filterOp idx = some err)
    (hnf : (errIs err .canceled || errIs err .deadlineExceeded) = false)
    (hns : isErrorStop err = false) :
    (p (attempt + 1) (elapsedAt (attempt + 1)) ≤ Stop →
      runLoop ctxDone p elapsedAt filterOp notifs idx attempt (fuel + 1) =
        .ok (some err) notifs) ∧
    (p (attempt + 1) (elapsedAt (attempt + 1)) = 0 →
      runLoop ctxDone p elapsedAt filterOp notifs idx attempt (fuel + 1) =
        runLoop ctxDone p elapsedAt filterOp (notifs ++ [⟨err, attempt + 1, 0⟩])
          (idx + 1) (attempt + 1) fuel) := by
  rw [runLoop_retryable_step ctxDone p elapsedAt filterOp notifs idx attempt fuel err hop hnf hns]
  constructor <;> intro h
  · rw [if_pos h]
  · rw [h, if_neg (by decide), if_pos rfl]

theorem run_policy_decision_witness :
    (runLoop (fun _ => true) (Constant (-3)) (fun _ => 0)
        (fun _ => some (.base 1)) [] 0 0 3 = .ok (some (.base 1)) []) ∧
    (runLoop (fun _ => true) Immediate (fun _ => 0)
        (fun _ => some (.base 1)) [] 0 0 3 =
      runLoop (fun _ => true) Immediate (fun _ => 0)
        (fun _ => some (.base 1)) [⟨.base 1, 1, 0⟩] 1 1 2) :=
  ⟨(run_policy_decision (fun _ => true) (Constant (-3)) (fun _ => 0)
      (fun _ => some (.base 1)) [] 0 0 2 (.base 1) rfl (by decide) (by decide)).1
      (by decide),
   (run_policy_decision (fun _ => true) Immediate (fun _ => 0)
      (fun _ => some (.base 1)) [] 0 0 2 (.base 1) rfl (by decide) (by decide)).2
      (by decide)⟩

/-- Claim C5: with the context already done before `Run` starts and policy
`Constant(1s)`, the first operation call still executes (no context check
precedes it); when that call fails with a retryable error, `Run` returns
the operation's error without completing the wait — for any remaining
fuel, after a single notification, with no second operation call. -/
theorem run_ctx_precanceled (err : GoError) (elapsedAt : Nat → Int) (fuel : Nat)
    (hnf : (errIs err .canceled || errIs err .deadlineExceeded) = false)
    (hns : isErrorStop err = false) :
    Run (fun _ => true) (Constant second) none (fun _ => some err) elapsedAt (fuel + 1) =
      .ok (some err) [⟨err, 1, second⟩] := by
  show runLoop (fun _ => true) (Constant second) elapsedAt (fun _ => some err) [] 0 0 (fuel + 1) =
    .ok (some err) [⟨err, 1, second⟩]
  rw [runLoop_retryable_step (fun _ => true) (Constant second) elapsedAt
    (fun _ => some err) [] 0 0 fuel err rfl hnf hns]
  rfl

theorem run_ctx_precanceled_witness :
    Run (fun _ => true) (Constant second) none (fun _ => some (.base 0)) (fun _ => 0) 1 =
      .ok (some (.base 0)) [⟨.base 0, 1, second⟩] :=
  run_ctx_precanceled (.base 0) (fun _ => 0) 0 (by decide) (by decide)

/-- Claim C10: `errorStop` implements no `Unwrap`, so even when the error
inside `ErrorStop(err)` is or wraps `context.Canceled` or
`context.DeadlineExceeded`, the `errors.Is` cancellation checks do not see
through the wrapper, and the loop classifies it as an explicit stop,
returning the unwrapped inner `err` rather than the wrapper. -/
theorem run_errorStop_shields_cancellation (ctxDone : Nat → Bool) (p : Policy)
    (elapsedAt : Nat → Int) (filterOp : Nat → Option GoError) (notifs : List Notif)
    (idx attempt fuel : Nat) (err : GoError)
    (_hfatal : (errIs err .canceled || errIs err .deadlineExceeded) = true)
    (hop : filterOp idx = some (ErrorStop err)) :
    errIs (ErrorStop err) .canceled = false ∧
    errIs (ErrorStop err) .deadlineExceeded = false ∧
    runLoop ctxDone p elapsedAt filterOp notifs idx attempt (fuel + 1) =
      .ok (some err) notifs :=
  ⟨rfl, rfl, runLoop_stopWrap_step ctxDone p elapsedAt filterOp notifs idx attempt fuel err hop⟩

theorem run_errorStop_shields_cancellation_witness :
    errIs (ErrorStop .canceled) .canceled = false ∧
    errIs (ErrorStop .canceled) .deadlineExceeded = false ∧
    runLoop (fun _ => false) Immediate (fun _ => 0)
      (fun _ => some (ErrorStop .canceled)) [] 0 0 1 =
      .ok (some .canceled) [] :=
  run_errorStop_shields_cancellation (fun _ => false) Immediate (fun _ => 0)
    (fun _ => some (ErrorStop .canceled)) [] 0 0 0 .canceled (by decide) rfl

end Retry
